import Mathlib

/-!
Verification of CasTorrent (src/CasTorrent.py), a Tkinter GUI over the
libtorrent engine.  The development shallowly embeds the pieces of the
program that the claims touch: Python strings are modelled as List Char,
Python side effects (dialogs, the on-screen log panel) are modelled as
explicit effect lists, and each GUI callback becomes a pure function from
an environment (describing what the engine / file system / user did) and
the current state to the new state and the produced effects.
-/

namespace CasTorrent

/-! ## Python string primitives, modelled over List Char -/

/-- Whitespace characters recognised by Python str.strip / str.split with
no argument; the program only ever strips ASCII whitespace. -/
def isWs (c : Char) : Bool :=
  c = ' ' || c = '\t' || c = '\n' || c = '\r' || c = '\x0b' || c = '\x0c'

/-- Python str.strip(): drop leading and trailing whitespace. -/
def pyStrip (cs : List Char) : List Char :=
  ((cs.dropWhile isWs).reverse.dropWhile isWs).reverse

/-- Python str.lower() restricted to ASCII letters, which are the only
cased characters the program compares after lowering. -/
def charLower (c : Char) : Char :=
  if 65 ≤ c.toNat ∧ c.toNat ≤ 90 then Char.ofNat (c.toNat + 32) else c

/-- Python str.lower() over the whole string. -/
def pyLower (cs : List Char) : List Char := cs.map charLower

/-! ## C3: the single-magnet dialog (MagnetDialog.add_magnet) -/

/-- String literal "magnet:" as a character list. -/
def magnetScheme : List Char := ['m', 'a', 'g', 'n', 'e', 't', ':']

/-- State of the MagnetDialog window: the result slot (initialised to
None in MagnetDialog.__init__), whether the window was destroyed, and the
error dialogs popped so far. -/
structure MagnetDialogState where
  result : Option (List Char × List Char)
  closed : Bool
  errorDialogs : List (String × String)
  deriving DecidableEq, Repr

/-- State of a freshly opened MagnetDialog: self.result = None. -/
def magnetDialogInit : MagnetDialogState :=
  { result := none, closed := false, errorDialogs := [] }

/-- MagnetDialog.add_magnet: trim the entry text; if it starts with
"magnet:" store (uri, download path) in self.result and destroy the
dialog, otherwise pop the "Invalid Magnet" error box and leave the
result slot alone. -/
def add_magnet (entryText pathText : List Char) (st : MagnetDialogState) :
    MagnetDialogState :=
  let magnet_uri := pyStrip entryText
  if magnetScheme.isPrefixOf magnet_uri then
    { st with result := some (magnet_uri, pathText), closed := true }
  else
    { st with errorDialogs :=
        st.errorDialogs ++ [("Invalid Magnet", "Enter a valid magnet URI.")] }

/-! ## C6: per-file priorities -/

def FILE_PRIORITY_SKIP : Int := 0
def FILE_PRIORITY_LOW : Int := 1
def FILE_PRIORITY_TWO : Int := 2
def FILE_PRIORITY_THREE : Int := 3
def FILE_PRIORITY_FOUR : Int := 4
def FILE_PRIORITY_FIVE : Int := 5
def FILE_PRIORITY_SIX : Int := 6
def FILE_PRIORITY_MAX : Int := 7
def FILE_PRIORITY_NORMAL : Int := FILE_PRIORITY_FOUR

/-- Choices offered by the priority combobox of FilePriorityDialog
(priority_values in FilePriorityDialog.__init__; the combobox is
read-only, so these are the only selectable values). -/
def priority_values : List Int :=
  [FILE_PRIORITY_SKIP, FILE_PRIORITY_LOW, FILE_PRIORITY_TWO, FILE_PRIORITY_THREE,
   FILE_PRIORITY_FOUR, FILE_PRIORITY_FIVE, FILE_PRIORITY_SIX, FILE_PRIORITY_MAX]

/-- TorrentClient.get_priority_text: the mapping dict, with str(priority)
as the default for keys not in the dict. -/
def get_priority_text (priority : Int) : String :=
  if priority = FILE_PRIORITY_SKIP then "Skip"
  else if priority = FILE_PRIORITY_LOW then "Low"
  else if priority = FILE_PRIORITY_TWO then "2"
  else if priority = FILE_PRIORITY_THREE then "3"
  else if priority = FILE_PRIORITY_FOUR then "Normal"
  else if priority = FILE_PRIORITY_FIVE then "5"
  else if priority = FILE_PRIORITY_SIX then "6"
  else if priority = FILE_PRIORITY_MAX then "Max"
  else toString priority

/-! ## Engine handles and the content fingerprint (safe_info_hash_str) -/

/-- Result of handle.info_hashes() under libtorrent 2.x: the v1 and v2
hashes, each present (and truthy) or not. -/
structure InfoHashes where
  v1 : Option String
  v2 : Option String
  deriving DecidableEq, Repr

/-- An engine torrent handle, reduced to the calls safe_info_hash_str
makes: info_hashes() (raises on libtorrent 1.x, modelled as none),
info_hash().to_string(), and str(info_hash()); none models a raise. -/
structure Handle where
  infoHashes : Option InfoHashes
  infoHashString : Option String
  infoHashRepr : Option String
  deriving DecidableEq, Repr

/-- Fallback chain of safe_info_hash_str: handle.info_hash().to_string()
for libtorrent 1.x, then str(handle.info_hash()), then the empty string. -/
def legacyInfoHash (h : Handle) : String :=
  match h.infoHashString with
  | some s => s
  | none =>
    match h.infoHashRepr with
    | some s => s
    | none => ""

/-- safe_info_hash_str: prefer info_hashes().v1, then info_hashes().v2,
then fall through to the libtorrent 1.x accessors. -/
def safe_info_hash_str (h : Handle) : String :=
  match h.infoHashes with
  | some ihs =>
    match ihs.v1 with
    | some s => s
    | none =>
      match ihs.v2 with
      | some s => s
      | none => legacyInfoHash h
  | none => legacyInfoHash h

/-! ## Client state: the torrents dict, history deque, log panel -/

/-- Model of collections.deque(maxlen = m).append: once the deque holds m
entries, appending drops the leftmost (oldest) entry. -/
def dequeAppend {α : Type} (maxlen : Nat) (xs : List α) (x : α) : List α :=
  if xs.length < maxlen then xs ++ [x] else xs.drop 1 ++ [x]

/-- One value of self.torrents: the dict literal built in add_torrent. -/
structure TorrentEntry where
  handle : Handle
  added_time : Nat
  source : String
  save_path : String
  moved : Bool
  deriving DecidableEq, Repr

/-- One entry of self.download_history (the dict appended in add_torrent). -/
structure HistoryEntry where
  name : String
  hash : String
  added_time : Nat
  source : String
  save_path : String
  deriving DecidableEq, Repr

/-- The mutable client state the verified operations touch: self.torrents
(a dict in insertion order, keys are safe_info_hash_str values),
self.download_history (deque, maxlen 3000) and the lines appended to the
on-screen log panel by self.log. -/
structure ClientState where
  torrents : List (String × TorrentEntry)
  download_history : List HistoryEntry
  logs : List String
  deriving DecidableEq, Repr

/-- Inputs of one add_torrent call, after the engine produced a handle:
the resolved display name models the name/status/name_hint chain. -/
structure AddTorrentArgs where
  handle : Handle
  source_type : String
  name_hint : String
  resolvedName : String
  save_path : String
  now : Nat
  deriving DecidableEq, Repr

/-- TorrentClient.add_torrent from the point where the handle exists:
compute t_hash with safe_info_hash_str; a hash already in self.torrents
is skipped with a log line and nothing else changes; otherwise one
torrents entry and one history entry are created under that hash. -/
def add_torrent (st : ClientState) (args : AddTorrentArgs) : ClientState :=
  let t_hash := safe_info_hash_str args.handle
  if (st.torrents.lookup t_hash).isSome then
    { st with logs := st.logs ++ ["Skipped duplicate torrent: " ++ args.name_hint] }
  else
    { st with
      torrents := st.torrents ++
        [(t_hash,
          { handle := args.handle, added_time := args.now, source := args.source_type,
            save_path := args.save_path, moved := false })],
      download_history := dequeAppend 3000 st.download_history
        { name := args.resolvedName, hash := t_hash, added_time := args.now,
          source := args.source_type, save_path := args.save_path } }

/-! ## C2: pause / force-recheck / force-reannounce error handling -/

/-- What the engine does during one control callback: whether a torrent
row is selected (and its handle resolves), the outcome of the engine
call itself, and the outcome of the h.name() read used by the success
log line of pause_selected. -/
structure ControlEnv where
  selected : Bool
  callResult : Except String Unit
  nameResult : Except String String
  deriving Repr

/-- TorrentClient.pause_selected: h.pause() then log success; any raise
inside the try block (the pause itself or the name read) is caught and
turned into a single log line. -/
def pause_selected (env : ControlEnv) (st : ClientState) : ClientState :=
  if ¬ env.selected then st
  else
    match env.callResult with
    | .error e => { st with logs := st.logs ++ ["Pause error: " ++ e] }
    | .ok _ =>
      match env.nameResult with
      | .ok n => { st with logs := st.logs ++ ["Paused: " ++ n] }
      | .error e => { st with logs := st.logs ++ ["Pause error: " ++ e] }

/-- TorrentClient.force_recheck: h.force_recheck() with catch-and-log. -/
def force_recheck (env : ControlEnv) (st : ClientState) : ClientState :=
  if ¬ env.selected then st
  else
    match env.callResult with
    | .error e => { st with logs := st.logs ++ ["Recheck error: " ++ e] }
    | .ok _ => { st with logs := st.logs ++ ["Force recheck"] }

/-- TorrentClient.force_reannounce: h.force_reannounce() with
catch-and-log. -/
def force_reannounce (env : ControlEnv) (st : ClientState) : ClientState :=
  if ¬ env.selected then st
  else
    match env.callResult with
    | .error e => { st with logs := st.logs ++ ["Reannounce error: " ++ e] }
    | .ok _ => { st with logs := st.logs ++ ["Force reannounce"] }

/-! ## C7: the performance ring buffers -/

/-- self.performance_stats: four deques, each with maxlen 600. -/
structure PerfStats where
  download_speeds : List Int
  upload_speeds : List Int
  memory_usage : List Int
  cpu_usage : List Int
  deriving DecidableEq, Repr

/-- Environment of one update_performance_stats call: session.status()
yielding (download_rate, upload_rate) or raising, and the psutil probe
yielding (rss, cpu percent) or raising. -/
structure PerfEnv where
  sessionStatus : Except String (Int × Int)
  psutilInfo : Except String (Int × Int)
  deriving Repr

/-- TorrentClient.update_performance_stats: append one sample to each of
the four deques, substituting 0 when the probe raised. -/
def update_performance_stats (env : PerfEnv) (ps : PerfStats) : PerfStats :=
  let ps1 :=
    match env.sessionStatus with
    | .ok (dl, ul) =>
      { ps with
        download_speeds := dequeAppend 600 ps.download_speeds dl,
        upload_speeds := dequeAppend 600 ps.upload_speeds ul }
    | .error _ =>
      { ps with
        download_speeds := dequeAppend 600 ps.download_speeds 0,
        upload_speeds := dequeAppend 600 ps.upload_speeds 0 }
  match env.psutilInfo with
  | .ok (mem, cpu) =>
    { ps1 with
      memory_usage := dequeAppend 600 ps1.memory_usage mem,
      cpu_usage := dequeAppend 600 ps1.cpu_usage cpu }
  | .error _ =>
    { ps1 with
      memory_usage := dequeAppend 600 ps1.memory_usage 0,
      cpu_usage := dequeAppend 600 ps1.cpu_usage 0 }

/-! ## C1: user-visible effects of Save As and the auto move -/

/-- Dialogs and log lines produced by one callback: messagebox.showinfo
boxes, messagebox.showerror boxes (each a title/message pair), and
self.log lines. -/
structure UIEffects where
  infoBoxes : List (String × String)
  errorBoxes : List (String × String)
  logs : List String
  deriving DecidableEq, Repr

def UIEffects.none : UIEffects := { infoBoxes := [], errorBoxes := [], logs := [] }

def UIEffects.append (a b : UIEffects) : UIEffects :=
  { infoBoxes := a.infoBoxes ++ b.infoBoxes,
    errorBoxes := a.errorBoxes ++ b.errorBoxes,
    logs := a.logs ++ b.logs }

/-- Environment of one save_as_selected call: selection and handle
resolution, the Path(save_path).exists() probe, the directory the user
picked (none for cancel / empty), the resolved content name (none when
falsy), and whether the copy raised (with the exception text). -/
structure SaveAsEnv where
  selected : Bool
  srcExists : Bool
  destDir : Option String
  contentName : Option String
  copyRaises : Option String
  deriving Repr

/-- TorrentClient.save_as_selected: the guard chain, then the copy inside
try, with showinfo on success and log plus showerror on failure. -/
def save_as_selected (env : SaveAsEnv) : UIEffects :=
  if ¬ env.selected then UIEffects.none
  else if ¬ env.srcExists then
    { UIEffects.none with infoBoxes := [("Save As", "Source path not found on disk yet.")] }
  else
    match env.destDir with
    | none => UIEffects.none
    | some dest =>
      match env.contentName with
      | none =>
        { UIEffects.none with infoBoxes := [("Save As", "Cannot resolve content name yet.")] }
      | some nm =>
        match env.copyRaises with
        | some e =>
          { UIEffects.none with
            errorBoxes := [("Save As", "Failed: " ++ e)],
            logs := ["Save As failed: " ++ e] }
        | none =>
          let target := dest ++ "/" ++ nm
          { UIEffects.none with
            infoBoxes := [("Save As", "Saved to: " ++ target)],
            logs := ["Saved to: " ++ target] }

/-- What auto_move_completed sees for one torrent of self.torrents:
whether handle.status() succeeded, the completion test, the moved flag,
the resolved name (none when falsy), whether any source path exists on
disk, the computed target path, and whether shutil.move raised. -/
structure AutoMoveItem where
  statusOk : Bool
  isDone : Bool
  moved : Bool
  name : Option String
  sourceExists : Bool
  target : String
  moveRaises : Option String
  deriving Repr

/-- Effects of auto_move_completed for a single torrent: a failed move is
logged (self.log) and nothing else happens; no dialog is involved. -/
def autoMoveItemEffects (it : AutoMoveItem) : UIEffects :=
  if ¬ it.statusOk then UIEffects.none
  else if it.isDone ∧ ¬ it.moved then
    match it.name with
    | none => UIEffects.none
    | some _ =>
      if ¬ it.sourceExists then UIEffects.none
      else
        match it.moveRaises with
        | some e => { UIEffects.none with logs := ["Auto-move failed: " ++ e] }
        | none => { UIEffects.none with logs := ["Auto-moved completed to: " ++ it.target] }
  else UIEffects.none

/-- TorrentClient.auto_move_completed: a failing mkdir of the Completed
directory silently returns; otherwise each tracked torrent is processed
in turn. -/
def auto_move_completed (mkdirFails : Bool) (items : List AutoMoveItem) : UIEffects :=
  if mkdirFails then UIEffects.none
  else (items.map autoMoveItemEffects).foldl UIEffects.append UIEffects.none

/-! ## C8: the background polling loop -/

/-- What the outside world does during one iteration of
update_torrents_loop: whether session.post_torrent_updates() raises
(swallowed by the inner try) and whether root.after raises (reaching the
outer except handler). -/
structure LoopEnv where
  postRaises : Bool
  afterRaises : Bool
  deriving Repr

/-- Observable record of one loop iteration: the poll was attempted, the
GUI refresh was scheduled or not, and how many seconds the loop slept
before the next check of the running flag. -/
structure LoopIter where
  polled : Bool
  scheduled : Bool
  sleepSecs : Nat
  deriving DecidableEq, Repr

/-- Body of one iteration of update_torrents_loop: post updates (inner
try swallows a raise), schedule update_gui_elements, sleep 1; when the
scheduling raises, the outer handler logs and sleeps 3. -/
def loopIter (env : LoopEnv) : LoopIter :=
  if env.afterRaises then { polled := true, scheduled := false, sleepSecs := 3 }
  else { polled := true, scheduled := true, sleepSecs := 1 }

/-- The while loop of update_torrents_loop, unrolled for fuel steps from
tick i: each iteration first checks self.running, then runs the body. -/
def loopTrace (running : Nat → Bool) (envs : Nat → LoopEnv) :
    Nat → Nat → List LoopIter
  | 0, _ => []
  | fuel + 1, i =>
    if running i then loopIter (envs i) :: loopTrace running envs fuel (i + 1) else []

/-- TorrentClient.update_torrents_loop observed for fuel iterations. -/
def update_torrents_loop (running : Nat → Bool) (envs : Nat → LoopEnv)
    (fuel : Nat) : List LoopIter :=
  loopTrace running envs fuel 0

/-- Total seconds slept along a trace. -/
def totalSleep (tr : List LoopIter) : Nat :=
  (tr.map LoopIter.sleepSecs).sum

/-! ## Decimal strings and Python string helpers shared by the parsers -/

/-- ASCII digit test. -/
def isDigitCh (c : Char) : Bool := 48 ≤ c.toNat && c.toNat ≤ 57

/-- Value of an ASCII digit. -/
def digitVal (c : Char) : Nat := c.toNat - 48

/-- Digits read left to right in base 10. -/
def charsToNat (cs : List Char) : Nat :=
  cs.foldl (fun a c => a * 10 + digitVal c) 0

/-- Python str.split(" "): cut at every single space, so consecutive
spaces yield empty parts and the result is never the empty list. -/
def splitOnSpace : List Char → List (List Char)
  | [] => [[]]
  | c :: cs =>
    if c = ' ' then [] :: splitOnSpace cs
    else
      match splitOnSpace cs with
      | p :: ps => (c :: p) :: ps
      | [] => [[c]]

/-- Python " ".join(parts). -/
def joinSpace : List (List Char) → List Char
  | [] => []
  | [p] => p
  | p :: ps => p ++ ' ' :: joinSpace ps

/-- Python str.replace("/s", ""): drop every occurrence of "/s",
scanning left to right. -/
def removeSlashS : List Char → List Char
  | '/' :: 's' :: rest => removeSlashS rest
  | c :: rest => c :: removeSlashS rest
  | [] => []

/-- Exact value num / den of a parsed decimal string; den is always a
positive power of ten times a unit factor free denominator, so exact
integer arithmetic reproduces the ordering of the parsed values. -/
structure DecVal where
  num : Int
  den : Nat
  deriving DecidableEq, Repr

/-- Models Python float() on the unsigned decimal strings the transfer
table renders (digits with at most one dot and at least one digit); the
value is kept exact, which orders these short decimal strings exactly as
the binary float does. Anything else errors, which parse_human turns
into the infinite sort key. -/
def pyFloatDec (cs : List Char) : Except Unit DecVal :=
  match cs.dropWhile (fun c => c ≠ '.') with
  | [] =>
    if cs ≠ [] ∧ cs.all isDigitCh then .ok ⟨charsToNat cs, 1⟩ else .error ()
  | _ :: frac =>
    if '.' ∈ frac then .error ()
    else if (cs.takeWhile (fun c => c ≠ '.')).all isDigitCh ∧ frac.all isDigitCh ∧
        (cs.takeWhile (fun c => c ≠ '.') ≠ [] ∨ frac ≠ []) then
      .ok ⟨charsToNat (cs.takeWhile (fun c => c ≠ '.')) * 10 ^ frac.length +
            charsToNat frac, 10 ^ frac.length⟩
    else .error ()

/-! ## C4: sorting the transfer list by the Size column -/

/-- The unit_map dict of parse_human, with .get(unit, 1) semantics. -/
def unitFactor (u : List Char) : Nat :=
  if u = ['B'] then 1
  else if u = ['K', 'B'] then 1024
  else if u = ['M', 'B'] then 1024 ^ 2
  else if u = ['G', 'B'] then 1024 ^ 3
  else if u = ['T', 'B'] then 1024 ^ 4
  else if u = ['P', 'B'] then 1024 ^ 5
  else 1

/-- parse_human of sort_treeview: the fast path for "0 B" / "0 B/s",
then sign, "/s" removal, a split into exactly number and unit, and the
product sign * num * unit; any failure (wrong number of parts,
unparseable number) yields float("inf"), modelled as none. -/
def parse_human (value_str : List Char) : Option DecVal :=
  if value_str = ['0', ' ', 'B'] ∨ value_str = ['0', ' ', 'B', '/', 's'] then
    some ⟨0, 1⟩
  else
    match splitOnSpace (removeSlashS (value_str.dropWhile (fun c => c = '-'))) with
    | [num_str, unit] =>
      match pyFloatDec num_str with
      | .ok num =>
        some ⟨(if value_str.head? = some '-' then (-1 : Int) else 1) * num.num *
                unitFactor unit, num.den⟩
      | .error _ => none
    | _ => none

/-- Comparison of sort keys by value (cross multiplication); none models
float("inf"), larger than every finite key. -/
def phLE (a b : Option DecVal) : Bool :=
  match a, b with
  | some x, some y => decide (x.num * (y.den : Int) ≤ y.num * (x.den : Int))
  | some _, none => true
  | none, none => true
  | none, some _ => false

/-- Row order used when the Size header is clicked: by parsed byte
value. -/
def sizeRowLE (a b : List Char) : Prop := phLE (parse_human a) (parse_human b) = true

instance : DecidableRel sizeRowLE := fun a b => by
  unfold sizeRowLE; infer_instance

/-- Python list.sort is a stable sort by the key; insertionSort with the
same total preorder produces the identical (unique) stable result. -/
def sortSizeRows (rows : List (List Char)) : List (List Char) :=
  List.insertionSort sizeRowLE rows

/-- One click on the Size header of sort_treeview: sort the current rows
by parse_human, then consult (_sort_column, _sort_reverse): a repeated
click with the reverse flag set reverses the rows and clears the flag, a
repeated click with the flag clear only sets the flag, and a first click
on this column just records the column with the flag clear. -/
def sort_treeview_size (rows : List (List Char)) (st : Option (String × Bool)) :
    List (List Char) × Option (String × Bool) :=
  let sorted := sortSizeRows rows
  match st with
  | some (c, rev) =>
    if c = "Size" then
      if rev then (sorted.reverse, some ("Size", false))
      else (sorted, some ("Size", true))
    else (sorted, some ("Size", false))
  | none => (sorted, some ("Size", false))

/-- Display and sort state after n clicks on the Size header, starting
from the unsorted table and the initial state (no _sort_column yet). -/
def sizeClicks (rows : List (List Char)) : Nat → List (List Char) × Option (String × Bool)
  | 0 => (rows, none)
  | n + 1 =>
    let prev := sizeClicks rows n
    sort_treeview_size prev.1 prev.2

/-! ## C9: format_time and the ETA parser of sort_treeview -/

/-- ASCII digit character for a value below ten. -/
def digitCh (d : Nat) : Char := Char.ofNat (48 + d)

/-- Python str(n) for a natural number: decimal digits, no sign. -/
def natToChars (n : Nat) : List Char :=
  if n < 10 then [digitCh n]
  else natToChars (n / 10) ++ [digitCh (n % 10)]
termination_by n
decreasing_by exact Nat.div_lt_self (by omega) (by omega)

/-- Models Python int() on the digit strings the ETA column produces: a
nonempty all-digit string parses to its value, anything else raises. -/
def pyIntNat (cs : List Char) : Except Unit Nat :=
  if cs ≠ [] ∧ cs.all isDigitCh then .ok (charsToNat cs) else .error ()

/-- Contribution of one space-separated part in parse_eta: the
elif chain on the final character, parts ending in no known letter are
skipped (contribute 0), a bad number raises. -/
def etaPartVal (p : List Char) : Except Unit Nat :=
  if p.getLast? = some 'd' then (pyIntNat p.dropLast).map (· * 86400)
  else if p.getLast? = some 'h' then (pyIntNat p.dropLast).map (· * 3600)
  else if p.getLast? = some 'm' then (pyIntNat p.dropLast).map (· * 60)
  else if p.getLast? = some 's' then pyIntNat p.dropLast
  else .ok 0

/-- The total accumulated by the for loop of parse_eta, aborting at the
first raising part. -/
def parseEtaSum : List (List Char) → Except Unit Nat
  | [] => .ok 0
  | p :: ps =>
    match etaPartVal p, parseEtaSum ps with
    | .ok v, .ok r => .ok (v + r)
    | .error e, _ => .error e
    | .ok _, .error e => .error e

/-- Result of parse_eta: the infinite key for the "∞" cell or a finite
number of seconds. -/
inductive EtaVal
  | inf
  | fin (n : Nat)
  deriving DecidableEq, Repr

/-- parse_eta of sort_treeview: "∞" maps to float("inf"), any other cell
is split on spaces and each part ending in d/h/m/s contributes its count
times the unit. -/
def parse_eta (eta_str : List Char) : Except Unit EtaVal :=
  if eta_str = ['∞'] then .ok .inf
  else (parseEtaSum (splitOnSpace eta_str)).map .fin

/-- One "<n><unit letter>" part of format_time. -/
def timePart (n : Nat) (c : Char) : List Char := natToChars n ++ [c]

/-- The parts list built by format_time for a positive number of
seconds: d/h/m parts when nonzero, and the seconds part when the
seconds remainder is nonzero or no other part was emitted. -/
def formatTimeParts (t : Nat) : List (List Char) :=
  (if t / 86400 ≠ 0 then [timePart (t / 86400) 'd'] else []) ++
  (if t % 86400 / 3600 ≠ 0 then [timePart (t % 86400 / 3600) 'h'] else []) ++
  (if t % 86400 % 3600 / 60 ≠ 0 then [timePart (t % 86400 % 3600 / 60) 'm'] else []) ++
  (if t % 86400 % 3600 % 60 ≠ 0 ∨
      (t / 86400 = 0 ∧ t % 86400 / 3600 = 0 ∧ t % 86400 % 3600 / 60 = 0) then
    [timePart (t % 86400 % 3600 % 60) 's']
  else [])

/-- TorrentClient.format_time: "0s" for a non-positive count, otherwise
the space-joined divmod chain over days, hours, minutes, seconds. -/
def format_time (seconds : Int) : List Char :=
  if seconds ≤ 0 then ['0', 's']
  else joinSpace (formatTimeParts seconds.toNat)

/-! ## C10: speed-limit parsing and display -/

/-- Round a natural number to the nearest IEEE-754 double (53 bits of
significand, ties to even), staying exact below 2 to the 53rd: this is
what Python float() does to the integer strings
parse_speed_limit_input receives. -/
def floatRoundNat (n : Nat) : Nat :=
  if n < 2 ^ 53 then n
  else
    if n % 2 ^ (Nat.log2 n - 52) < 2 ^ (Nat.log2 n - 52 - 1) then
      n / 2 ^ (Nat.log2 n - 52) * 2 ^ (Nat.log2 n - 52)
    else if 2 ^ (Nat.log2 n - 52 - 1) < n % 2 ^ (Nat.log2 n - 52) then
      (n / 2 ^ (Nat.log2 n - 52) + 1) * 2 ^ (Nat.log2 n - 52)
    else if n / 2 ^ (Nat.log2 n - 52) % 2 = 0 then
      n / 2 ^ (Nat.log2 n - 52) * 2 ^ (Nat.log2 n - 52)
    else (n / 2 ^ (Nat.log2 n - 52) + 1) * 2 ^ (Nat.log2 n - 52)

/-- The spellings parse_speed_limit_input maps to the unlimited limit. -/
def unlimitedSpellings : List (List Char) :=
  [['0'],
   ['i', 'n', 'f'],
   ['i', 'n', 'f', 'i', 'n', 'i', 't', 'y'],
   ['∞'],
   ['u', 'n', 'l', 'i', 'm', 'i', 't', 'e', 'd']]

/-- TorrentClient.parse_speed_limit_input: strip and lower the input;
the unlimited spellings parse to 0, anything else goes through
int(float(s) * 1024). Python float() is modelled on the integer strings
format_speed_limit_display produces (correct rounding to double via
floatRoundNat; the scale by 1024, a power of two, and the int()
truncation of the integral result are exact); other inputs error. -/
def parse_speed_limit_input (input_str : List Char) : Except Unit Nat :=
  if pyLower (pyStrip input_str) ∈ unlimitedSpellings then .ok 0
  else if pyLower (pyStrip input_str) ≠ [] ∧
      (pyLower (pyStrip input_str)).all isDigitCh then
    .ok (floatRoundNat (charsToNat (pyLower (pyStrip input_str))) * 1024)
  else .error ()

/-- TorrentClient.format_speed_limit_display on the nonnegative limits
the config stores: 0 renders as the infinity sign, any other limit as
str(b // 1024). -/
def format_speed_limit_display (bytes_per_second : Nat) : List Char :=
  if bytes_per_second = 0 then ['∞'] else natToChars (bytes_per_second / 1024)

/-! ## Helper lemmas -/

/-- Appending to a deque that is within its bound keeps it within the
bound. -/
theorem dequeAppend_length_le {α : Type} (m : Nat) (hm : 1 ≤ m) (xs : List α) (x : α)
    (h : xs.length ≤ m) : (dequeAppend m xs x).length ≤ m := by
  unfold dequeAppend
  split
  · simp only [List.length_append, List.length_singleton]
    omega
  · simp only [List.length_append, List.length_drop, List.length_singleton]
    omega

/-- A single auto-move step never opens a dialog box. -/
theorem autoMoveItemEffects_no_dialogs (it : AutoMoveItem) :
    (autoMoveItemEffects it).infoBoxes = [] ∧ (autoMoveItemEffects it).errorBoxes = [] := by
  unfold autoMoveItemEffects
  repeat' first
  | split
  | exact ⟨rfl, rfl⟩

/-- Folding dialog-free effects over a dialog-free accumulator stays
dialog-free. -/
theorem foldl_append_no_dialogs (l : List UIEffects) :
    ∀ acc : UIEffects, acc.infoBoxes = [] → acc.errorBoxes = [] →
      (∀ x ∈ l, x.infoBoxes = [] ∧ x.errorBoxes = []) →
      (l.foldl UIEffects.append acc).infoBoxes = [] ∧
      (l.foldl UIEffects.append acc).errorBoxes = [] := by
  induction l with
  | nil => intro acc h1 h2 _; exact ⟨h1, h2⟩
  | cons x xs ih =>
    intro acc h1 h2 hall
    have hx := hall x (List.mem_cons_self x xs)
    refine ih (UIEffects.append acc x) ?_ ?_ ?_
    · simp [UIEffects.append, h1, hx.1]
    · simp [UIEffects.append, h2, hx.2]
    · intro y hy; exact hall y (List.mem_cons_of_mem x hy)

/-- Denominators produced by pyFloatDec are positive. -/
theorem pyFloatDec_den_pos (cs : List Char) (d : DecVal) (h : pyFloatDec cs = .ok d) :
    0 < d.den := by
  unfold pyFloatDec at h
  split at h
  · split at h
    · cases h; exact Nat.one_pos
    · simp at h
  · split at h
    · simp at h
    · split at h
      · cases h; positivity
      · simp at h

/-- Denominators of parse_human keys are positive. -/
theorem parse_human_den_pos (s : List Char) (v : DecVal) (h : parse_human s = some v) :
    0 < v.den := by
  unfold parse_human at h
  split at h
  · cases h; exact Nat.one_pos
  · split at h
    · rename_i num_str unitStr hsp
      rcases hf : pyFloatDec num_str with e | d <;> rw [hf] at h
      · simp at h
      · cases h
        exact pyFloatDec_den_pos num_str d hf
    · simp at h

instance : IsTotal (List Char) sizeRowLE := by
  constructor
  intro a b
  unfold sizeRowLE phLE
  rcases parse_human a with _ | x <;> rcases parse_human b with _ | y
  · exact Or.inl rfl
  · exact Or.inr rfl
  · exact Or.inl rfl
  · rcases le_total (x.num * (y.den : Int)) (y.num * (x.den : Int)) with h | h
    · exact Or.inl (decide_eq_true h)
    · exact Or.inr (decide_eq_true h)

instance : IsTrans (List Char) sizeRowLE := by
  constructor
  intro a b c hab hbc
  unfold sizeRowLE phLE at hab hbc ⊢
  rcases ha : parse_human a with _ | x <;>
    rcases hb : parse_human b with _ | y <;>
    rcases hc : parse_human c with _ | z <;>
    rw [ha, hb] at hab <;> rw [hb, hc] at hbc
  all_goals try exact hbc
  all_goals try exact Bool.noConfusion hab
  all_goals try exact Bool.noConfusion hbc
  have h1 := of_decide_eq_true hab
  have h2 := of_decide_eq_true hbc
  have hyd : (0 : Int) < (y.den : Int) := by exact_mod_cast parse_human_den_pos b y hb
  have hxd : (0 : Int) ≤ (x.den : Int) := Int.natCast_nonneg _
  have hzd : (0 : Int) ≤ (z.den : Int) := Int.natCast_nonneg _
  have g1 := mul_le_mul_of_nonneg_right h1 hzd
  have g2 := mul_le_mul_of_nonneg_right h2 hxd
  have g3 : x.num * (z.den : Int) * (y.den : Int) ≤
      z.num * (x.den : Int) * (y.den : Int) := by nlinarith [g1, g2]
  exact decide_eq_true (le_of_mul_le_mul_right g3 hyd)

/-- Code point of a digit character. -/
theorem digitCh_toNat (d : Nat) (h : d < 10) : (digitCh d).toNat = 48 + d := by
  interval_cases d <;> rfl

/-- Digit characters pass the digit test. -/
theorem isDigitCh_digitCh (d : Nat) (h : d < 10) : isDigitCh (digitCh d) = true := by
  interval_cases d <;> rfl

/-- Value of a digit character. -/
theorem digitVal_digitCh (d : Nat) (h : d < 10) : digitVal (digitCh d) = d := by
  unfold digitVal
  rw [digitCh_toNat d h]
  omega

/-- Reading one more trailing digit multiplies by ten and adds it. -/
theorem charsToNat_append_digit (xs : List Char) (c : Char) :
    charsToNat (xs ++ [c]) = charsToNat xs * 10 + digitVal c := by
  unfold charsToNat
  rw [List.foldl_append]
  rfl

/-- Parsing the decimal rendering of n gives back n. -/
theorem charsToNat_natToChars (n : Nat) : charsToNat (natToChars n) = n := by
  induction n using Nat.strong_induction_on with
  | _ n ih =>
    rw [natToChars]
    split
    · rename_i h
      simp [charsToNat, digitVal_digitCh n h]
    · rename_i h
      rw [charsToNat_append_digit,
        ih (n / 10) (Nat.div_lt_self (by omega) (by omega)),
        digitVal_digitCh (n % 10) (Nat.mod_lt _ (by omega))]
      omega

/-- The decimal rendering is never empty. -/
theorem natToChars_ne_nil (n : Nat) : natToChars n ≠ [] := by
  rw [natToChars]
  split <;> simp

/-- Every character of the decimal rendering is a digit. -/
theorem natToChars_all_digits (n : Nat) : ∀ c ∈ natToChars n, isDigitCh c = true := by
  induction n using Nat.strong_induction_on with
  | _ n ih =>
    rw [natToChars]
    split
    · rename_i h
      intro c hc
      rw [List.mem_singleton] at hc
      subst hc
      exact isDigitCh_digitCh n h
    · rename_i h
      intro c hc
      rw [List.mem_append] at hc
      rcases hc with hc | hc
      · exact ih (n / 10) (Nat.div_lt_self (by omega) (by omega)) c hc
      · rw [List.mem_singleton] at hc
        subst hc
        exact isDigitCh_digitCh (n % 10) (Nat.mod_lt _ (by omega))

/-- Python int() applied to str(n) gives back n. -/
theorem pyIntNat_natToChars (n : Nat) : pyIntNat (natToChars n) = .ok n := by
  have h1 : (natToChars n).all isDigitCh = true := by
    rw [List.all_eq_true]
    exact natToChars_all_digits n
  simp [pyIntNat, natToChars_ne_nil n, h1, charsToNat_natToChars]

/-- Splitting a string without spaces is the single part. -/
theorem splitOnSpace_no_space (p : List Char) (h : ' ' ∉ p) :
    splitOnSpace p = [p] := by
  induction p with
  | nil => rfl
  | cons c cs ih =>
    have hc : ¬ c = ' ' := fun e => h (e ▸ List.mem_cons_self c cs)
    have hcs : ' ' ∉ cs := fun m => h (List.mem_cons_of_mem c m)
    simp only [splitOnSpace, if_neg hc, ih hcs]

/-- Splitting past a spaceless part and one space peels off that part. -/
theorem splitOnSpace_append (p rest : List Char) (h : ' ' ∉ p) :
    splitOnSpace (p ++ ' ' :: rest) = p :: splitOnSpace rest := by
  induction p with
  | nil => simp [splitOnSpace]
  | cons c cs ih =>
    have hc : ¬ c = ' ' := fun e => h (e ▸ List.mem_cons_self c cs)
    have hcs : ' ' ∉ cs := fun m => h (List.mem_cons_of_mem c m)
    simp only [List.cons_append, splitOnSpace, if_neg hc, List.append_eq, ih hcs]

/-- Splitting the space-join of nonempty, spaceless parts recovers the
parts. -/
theorem splitOnSpace_joinSpace (parts : List (List Char)) (hne : parts ≠ [])
    (h : ∀ p ∈ parts, ' ' ∉ p) : splitOnSpace (joinSpace parts) = parts := by
  induction parts with
  | nil => exact absurd rfl hne
  | cons p ps ih =>
    cases ps with
    | nil => exact splitOnSpace_no_space p (h p (List.mem_cons_self p []))
    | cons q qs =>
      show splitOnSpace (p ++ ' ' :: joinSpace (q :: qs)) = p :: q :: qs
      rw [splitOnSpace_append p _ (h p (List.mem_cons_self p _))]
      rw [ih (by simp) (fun r hr => h r (List.mem_cons_of_mem p hr))]

/-- A character of a space-join is the separator or from some part. -/
theorem mem_joinSpace (c : Char) (parts : List (List Char))
    (h : c ∈ joinSpace parts) : c = ' ' ∨ ∃ p ∈ parts, c ∈ p := by
  induction parts with
  | nil => simp [joinSpace] at h
  | cons p ps ih =>
    cases ps with
    | nil => exact Or.inr ⟨p, List.mem_cons_self p [], h⟩
    | cons q qs =>
      rw [show joinSpace (p :: q :: qs) = p ++ ' ' :: joinSpace (q :: qs) from rfl,
        List.mem_append] at h
      rcases h with h | h
      · exact Or.inr ⟨p, List.mem_cons_self p _, h⟩
      · rcases List.mem_cons.mp h with h | h
        · exact Or.inl h
        · rcases ih h with h | ⟨r, hr, hc⟩
          · exact Or.inl h
          · exact Or.inr ⟨r, List.mem_cons_of_mem p hr, hc⟩

/-- Values of the four unit parts under the elif chain of parse_eta. -/
theorem etaPartVal_timePart (n : Nat) :
    etaPartVal (timePart n 'd') = .ok (n * 86400) ∧
    etaPartVal (timePart n 'h') = .ok (n * 3600) ∧
    etaPartVal (timePart n 'm') = .ok (n * 60) ∧
    etaPartVal (timePart n 's') = .ok n := by
  refine ⟨?_, ?_, ?_, ?_⟩ <;>
    simp [etaPartVal, timePart, List.getLast?_concat, List.dropLast_concat,
      pyIntNat_natToChars, Except.map]

/-- The loop total distributes over list concatenation when both halves
succeed. -/
theorem parseEtaSum_append (xs ys : List (List Char)) (a b : Nat)
    (hx : parseEtaSum xs = .ok a) (hy : parseEtaSum ys = .ok b) :
    parseEtaSum (xs ++ ys) = .ok (a + b) := by
  induction xs generalizing a with
  | nil =>
    simp only [parseEtaSum] at hx
    cases hx
    simpa using hy
  | cons p ps ih =>
    rcases hp : etaPartVal p with e | v <;>
      rcases hps : parseEtaSum ps with e2 | r <;>
      rw [parseEtaSum, hp, hps] at hx <;> cases hx
    have h2 := ih r hps
    rw [List.cons_append, parseEtaSum, hp, h2]
    show Except.ok (v + (r + b)) = Except.ok (v + r + b)
    rw [Nat.add_assoc]

/-- Membership in an optional singleton forces the element. -/
theorem mem_if_singleton {α : Type} {b : Prop} [Decidable b] {x p : α}
    (h : p ∈ (if b then [x] else [])) : p = x := by
  split at h
  · simpa using h
  · simp at h

/-- The loop total of an optional leading part. -/
theorem parseEtaSum_optPart (b : Prop) [Decidable b] (n : Nat) (c : Char)
    (w : Nat) (hw : etaPartVal (timePart n c) = .ok w)
    (rest : List (List Char)) (r : Nat) (hr : parseEtaSum rest = .ok r) :
    parseEtaSum ((if b then [timePart n c] else []) ++ rest) =
      .ok ((if b then w else 0) + r) := by
  by_cases hb : b
  · rw [if_pos hb, if_pos hb]
    have h1 : parseEtaSum [timePart n c] = .ok w := by
      rw [show [timePart n c] = timePart n c :: [] from rfl, parseEtaSum, hw]
      rfl
    exact parseEtaSum_append _ _ _ _ h1 hr
  · rw [if_neg hb, if_neg hb]
    simpa using hr

/-- The parts format_time emits sum back to the formatted count. -/
theorem parseEtaSum_formatTimeParts (t : Nat) :
    parseEtaSum (formatTimeParts t) = .ok t := by
  have hd := (etaPartVal_timePart (t / 86400)).1
  have hh := (etaPartVal_timePart (t % 86400 / 3600)).2.1
  have hm := (etaPartVal_timePart (t % 86400 % 3600 / 60)).2.2.1
  have hs := (etaPartVal_timePart (t % 86400 % 3600 % 60)).2.2.2
  have h4 : parseEtaSum
      ((if t % 86400 % 3600 % 60 ≠ 0 ∨
          (t / 86400 = 0 ∧ t % 86400 / 3600 = 0 ∧ t % 86400 % 3600 / 60 = 0) then
        [timePart (t % 86400 % 3600 % 60) 's'] else []) ++ []) =
      .ok ((if t % 86400 % 3600 % 60 ≠ 0 ∨
          (t / 86400 = 0 ∧ t % 86400 / 3600 = 0 ∧ t % 86400 % 3600 / 60 = 0) then
        t % 86400 % 3600 % 60 else 0) + 0) :=
    parseEtaSum_optPart _ _ _ _ hs [] 0 rfl
  have h3 := parseEtaSum_optPart (t % 86400 % 3600 / 60 ≠ 0) _ 'm' _ hm _ _ h4
  have h2 := parseEtaSum_optPart (t % 86400 / 3600 ≠ 0) _ 'h' _ hh _ _ h3
  have h1 := parseEtaSum_optPart (t / 86400 ≠ 0) _ 'd' _ hd _ _ h2
  rw [formatTimeParts]
  rw [List.append_assoc, List.append_assoc]
  rw [show ((if t % 86400 % 3600 % 60 ≠ 0 ∨
      (t / 86400 = 0 ∧ t % 86400 / 3600 = 0 ∧ t % 86400 % 3600 / 60 = 0) then
      [timePart (t % 86400 % 3600 % 60) 's'] else []) : List (List Char)) =
    (if t % 86400 % 3600 % 60 ≠ 0 ∨
      (t / 86400 = 0 ∧ t % 86400 / 3600 = 0 ∧ t % 86400 % 3600 / 60 = 0) then
      [timePart (t % 86400 % 3600 % 60) 's'] else []) ++ [] from (List.append_nil _).symm]
  rw [h1]
  congr 1
  split_ifs <;> omega

/-- Characters of a unit part: digits and its unit letter. -/
theorem timePart_chars (n : Nat) (c0 : Char) :
    ∀ c ∈ timePart n c0, isDigitCh c = true ∨ c = c0 := by
  intro c hc
  unfold timePart at hc
  rw [List.mem_append] at hc
  rcases hc with hc | hc
  · exact Or.inl (natToChars_all_digits n c hc)
  · rw [List.mem_singleton] at hc
    exact Or.inr hc

/-- Every part format_time emits consists of digits and unit letters. -/
theorem formatTimeParts_chars (t : Nat) :
    ∀ p ∈ formatTimeParts t, ∀ c ∈ p,
      isDigitCh c = true ∨ c ∈ (['d', 'h', 'm', 's'] : List Char) := by
  intro p hp c hc
  unfold formatTimeParts at hp
  rw [List.mem_append] at hp
  rcases hp with hp | hp
  · rw [List.mem_append] at hp
    rcases hp with hp | hp
    · rw [List.mem_append] at hp
      rcases hp with hp | hp
      · rcases timePart_chars _ _ c (mem_if_singleton hp ▸ hc) with h | h
        · exact Or.inl h
        · right
          rw [h]
          decide
      · rcases timePart_chars _ _ c (mem_if_singleton hp ▸ hc) with h | h
        · exact Or.inl h
        · right
          rw [h]
          decide
    · rcases timePart_chars _ _ c (mem_if_singleton hp ▸ hc) with h | h
      · exact Or.inl h
      · right
        rw [h]
        decide
  · rcases timePart_chars _ _ c (mem_if_singleton hp ▸ hc) with h | h
    · exact Or.inl h
    · right
      rw [h]
      decide

/-- format_time always emits at least one part. -/
theorem formatTimeParts_ne_nil (t : Nat) : formatTimeParts t ≠ [] := by
  unfold formatTimeParts
  split_ifs <;> simp_all

/-- No part format_time emits contains a space. -/
theorem formatTimeParts_no_space (t : Nat) :
    ∀ p ∈ formatTimeParts t, ' ' ∉ p := by
  intro p hp hsp
  rcases formatTimeParts_chars t p hp ' ' hsp with h | h
  · exact absurd h (by decide)
  · exact absurd h (by decide)

/-- The joined output of format_time never equals the infinity cell. -/
theorem formatTime_join_ne_inf (t : Nat) :
    joinSpace (formatTimeParts t) ≠ ['∞'] := by
  intro e
  have hmem : '∞' ∈ joinSpace (formatTimeParts t) := by
    rw [e]
    exact List.mem_singleton_self _
  rcases mem_joinSpace _ _ hmem with h | ⟨p, hp, hc⟩
  · exact absurd h (by decide)
  · rcases formatTimeParts_chars t p hp '∞' hc with h | h
    · exact absurd h (by decide)
    · exact absurd h (by decide)

/-- No whitespace character is an upper-case letter, so charLower fixes
whitespace. -/
theorem charLower_ws (c : Char) (h : isWs c = true) : charLower c = c := by
  unfold isWs at h
  simp only [Bool.or_eq_true, decide_eq_true_eq] at h
  rcases h with ((((h | h) | h) | h) | h) | h <;> subst h <;> rfl

/-- Digits are fixed by charLower. -/
theorem charLower_digit (c : Char) (h : isDigitCh c = true) : charLower c = c := by
  unfold isDigitCh at h
  simp only [Bool.and_eq_true, decide_eq_true_eq] at h
  unfold charLower
  rw [if_neg]
  omega

/-- Digits are not whitespace. -/
theorem isDigitCh_not_ws (c : Char) (h : isDigitCh c = true) : isWs c = false := by
  rcases hw : isWs c with _ | _
  · rfl
  · exfalso
    unfold isWs at hw
    simp only [Bool.or_eq_true, decide_eq_true_eq] at hw
    rcases hw with ((((e | e) | e) | e) | e) | e <;>
      rw [e] at h <;> exact absurd h (by decide)

/-- The unlimited spellings contain no whitespace. -/
theorem unlimitedSpellings_no_ws :
    ∀ s ∈ unlimitedSpellings, ∀ c ∈ s, isWs c = false := by decide

/-- dropWhile consumes a prefix on which the predicate holds. -/
theorem dropWhile_append_of_all (p : Char → Bool) (a b : List Char)
    (h : ∀ c ∈ a, p c = true) :
    List.dropWhile p (a ++ b) = List.dropWhile p b := by
  induction a with
  | nil => rfl
  | cons x xs ih =>
    rw [List.cons_append, List.dropWhile_cons_of_pos (h x (List.mem_cons_self x xs))]
    exact ih (fun c hc => h c (List.mem_cons_of_mem x hc))

/-- dropWhile fixes a list on which the predicate never holds. -/
theorem dropWhile_of_all_neg (p : Char → Bool) (a : List Char)
    (h : ∀ c ∈ a, p c = false) : List.dropWhile p a = a := by
  cases a with
  | nil => rfl
  | cons x xs =>
    apply List.dropWhile_cons_of_neg
    simp [h x (List.mem_cons_self x xs)]

/-- Python str.strip() removes exactly a whitespace prefix and suffix
around a whitespace-free core. -/
theorem pyStrip_sandwich (ws1 w ws2 : List Char)
    (h1 : ∀ c ∈ ws1, isWs c = true) (h2 : ∀ c ∈ ws2, isWs c = true)
    (hw : ∀ c ∈ w, isWs c = false) (hne : w ≠ []) :
    pyStrip (ws1 ++ (w ++ ws2)) = w := by
  unfold pyStrip
  rw [dropWhile_append_of_all _ ws1 _ h1]
  have hstep : List.dropWhile isWs (w ++ ws2) = w ++ ws2 := by
    cases w with
    | nil => exact absurd rfl hne
    | cons x xs =>
      rw [List.cons_append]
      apply List.dropWhile_cons_of_neg
      simp [hw x (List.mem_cons_self x xs)]
  rw [hstep, List.reverse_append,
    dropWhile_append_of_all _ ws2.reverse _ (fun c hc => h2 c (List.mem_reverse.mp hc)),
    dropWhile_of_all_neg _ w.reverse (fun c hc => hw c (List.mem_reverse.mp hc))]
  exact List.reverse_reverse w

/-- Lowering fixes a digit string. -/
theorem pyLower_digits (cs : List Char) (h : ∀ c ∈ cs, isDigitCh c = true) :
    pyLower cs = cs := by
  unfold pyLower
  rw [List.map_congr_left (fun c hc => charLower_digit c (h c hc))]
  exact List.map_id cs

/-- Stripping and lowering fixes a nonempty digit string. -/
theorem pyLowerStrip_digits (cs : List Char) (hne : cs ≠ [])
    (h : ∀ c ∈ cs, isDigitCh c = true) :
    pyLower (pyStrip cs) = cs := by
  have hs := pyStrip_sandwich [] cs [] (by simp) (by simp)
    (fun c hc => isDigitCh_not_ws c (h c hc)) hne
  simp only [List.nil_append, List.append_nil] at hs
  rw [hs]
  exact pyLower_digits cs h

/-- The decimal rendering of a positive number is none of the unlimited
spellings. -/
theorem natToChars_not_unlimited (n : Nat) (hn : 1 ≤ n) :
    natToChars n ∉ unlimitedSpellings := by
  intro hmem
  have hrt := charsToNat_natToChars n
  unfold unlimitedSpellings at hmem
  rcases List.mem_cons.mp hmem with h | hmem
  · rw [h] at hrt
    rw [show charsToNat ['0'] = 0 from rfl] at hrt
    omega
  rcases List.mem_cons.mp hmem with h | hmem
  · have hi : 'i' ∈ natToChars n := by
      rw [h]
      exact List.mem_cons_self _ _
    exact absurd (natToChars_all_digits n 'i' hi) (by decide)
  rcases List.mem_cons.mp hmem with h | hmem
  · have hi : 'i' ∈ natToChars n := by
      rw [h]
      exact List.mem_cons_self _ _
    exact absurd (natToChars_all_digits n 'i' hi) (by decide)
  rcases List.mem_cons.mp hmem with h | hmem
  · have hi : '∞' ∈ natToChars n := by
      rw [h]
      exact List.mem_cons_self _ _
    exact absurd (natToChars_all_digits n '∞' hi) (by decide)
  rcases List.mem_cons.mp hmem with h | hmem
  · have hi : 'u' ∈ natToChars n := by
      rw [h]
      exact List.mem_cons_self _ _
    exact absurd (natToChars_all_digits n 'u' hi) (by decide)
  · simp at hmem

/-- Parsing the display of 1024 k produces the float rounding of k,
scaled back by 1024. -/
theorem parse_format_digits (k : Nat) (hk : 1 ≤ k) :
    parse_speed_limit_input (format_speed_limit_display (1024 * k)) =
      .ok (floatRoundNat k * 1024) := by
  have hz : ¬ (1024 * k = 0) := by omega
  rw [format_speed_limit_display, if_neg hz]
  have hdiv : 1024 * k / 1024 = k := by omega
  rw [hdiv]
  have hdig := natToChars_all_digits k
  have hfix : pyLower (pyStrip (natToChars k)) = natToChars k :=
    pyLowerStrip_digits _ (natToChars_ne_nil k) hdig
  rw [parse_speed_limit_input, hfix,
    if_neg (natToChars_not_unlimited k hk)]
  rw [if_pos ⟨natToChars_ne_nil k, by rw [List.all_eq_true]; exact hdig⟩]
  rw [charsToNat_natToChars]

/-- Float rounding is the identity up to 2 to the 53rd. -/
theorem floatRoundNat_eq_self (k : Nat) (hk : k ≤ 2 ^ 53) : floatRoundNat k = k := by
  by_cases h : k < 2 ^ 53
  · rw [floatRoundNat, if_pos h]
  · have hk53 : k = 2 ^ 53 := by omega
    subst hk53
    have hlog : Nat.log2 (2 ^ 53) = 53 := by
      rw [Nat.log2_eq_log_two]
      exact Nat.log_eq_of_pow_le_of_lt_pow (le_refl _) (by norm_num)
    rw [floatRoundNat, if_neg h, hlog]
    norm_num

/-- The first integer the double format cannot represent rounds down,
ties to even. -/
theorem floatRoundNat_first_gap : floatRoundNat (2 ^ 53 + 1) = 2 ^ 53 := by
  have h : ¬ (2 ^ 53 + 1 < 2 ^ 53) := by omega
  have hlog : Nat.log2 (2 ^ 53 + 1) = 53 := by
    rw [Nat.log2_eq_log_two]
    exact Nat.log_eq_of_pow_le_of_lt_pow (by omega) (by norm_num)
  rw [floatRoundNat, if_neg h, hlog]
  norm_num

/-! ## Theorems for the claims -/

/-- C3: the Add action of the single-magnet dialog accepts the entered
string, storing (trimmed uri, download path) and closing the dialog,
exactly when the whitespace-trimmed string starts with "magnet:"; any
other string pops the Invalid Magnet error box and leaves the result
slot at None. -/
theorem magnet_dialog_accepts_iff_magnet_scheme (entryText pathText : List Char) :
    (magnetScheme.isPrefixOf (pyStrip entryText) = true →
      add_magnet entryText pathText magnetDialogInit =
        { result := some (pyStrip entryText, pathText), closed := true,
          errorDialogs := [] }) ∧
    (magnetScheme.isPrefixOf (pyStrip entryText) = false →
      add_magnet entryText pathText magnetDialogInit =
        { result := none, closed := false,
          errorDialogs := [("Invalid Magnet", "Enter a valid magnet URI.")] }) := by
  constructor <;> intro h <;> simp [add_magnet, magnetDialogInit, h]

/-- Witness for C3 at two concrete inputs: a magnet URI with surrounding
whitespace is accepted trimmed; an http URL is rejected with the error
box and a None result. -/
theorem magnet_dialog_accepts_iff_magnet_scheme_witness :
    add_magnet (' ' :: magnetScheme ++ ['x']) ['/', 'd'] magnetDialogInit =
      { result := some (pyStrip (' ' :: magnetScheme ++ ['x']), ['/', 'd']),
        closed := true, errorDialogs := [] } ∧
    add_magnet ['h', 't', 't', 'p'] ['/', 'd'] magnetDialogInit =
      { result := none, closed := false,
        errorDialogs := [("Invalid Magnet", "Enter a valid magnet URI.")] } :=
  ⟨(magnet_dialog_accepts_iff_magnet_scheme (' ' :: magnetScheme ++ ['x'])
      ['/', 'd']).1 (by decide),
   (magnet_dialog_accepts_iff_magnet_scheme ['h', 't', 't', 'p']
      ['/', 'd']).2 (by decide)⟩

/-- C6: per-file priority is the 8-level enum 0..7 with 4 as Normal; the
file-priority dialog combobox offers exactly these eight values, and
get_priority_text labels each of the eight while rendering every other
integer as its decimal string. -/
theorem file_priority_enum_spec :
    priority_values = [0, 1, 2, 3, 4, 5, 6, 7] ∧
    FILE_PRIORITY_SKIP = 0 ∧ FILE_PRIORITY_MAX = 7 ∧ FILE_PRIORITY_NORMAL = 4 ∧
    priority_values.map get_priority_text =
      ["Skip", "Low", "2", "3", "Normal", "5", "6", "Max"] ∧
    (∀ p : Int, p ∉ priority_values → get_priority_text p = toString p) := by
  refine ⟨by decide, by decide, by decide, by decide, by decide, ?_⟩
  intro p hp
  simp only [priority_values, FILE_PRIORITY_SKIP, FILE_PRIORITY_LOW, FILE_PRIORITY_TWO,
    FILE_PRIORITY_THREE, FILE_PRIORITY_FOUR, FILE_PRIORITY_FIVE, FILE_PRIORITY_SIX,
    FILE_PRIORITY_MAX, List.mem_cons, List.not_mem_nil, or_false, not_or] at hp
  obtain ⟨h0, h1, h2, h3, h4, h5, h6, h7⟩ := hp
  simp [get_priority_text, FILE_PRIORITY_SKIP, FILE_PRIORITY_LOW, FILE_PRIORITY_TWO,
    FILE_PRIORITY_THREE, FILE_PRIORITY_FOUR, FILE_PRIORITY_FIVE, FILE_PRIORITY_SIX,
    FILE_PRIORITY_MAX, h0, h1, h2, h3, h4, h5, h6, h7]

/-- Witness for C6 at the out-of-range priority 9, which is rendered as
its decimal string. -/
theorem file_priority_enum_spec_witness :
    get_priority_text 9 = toString (9 : Int) :=
  file_priority_enum_spec.2.2.2.2.2 9 (by decide)

/-- C2: when the engine call of pause, force-recheck or force-reannounce
raises, the callback catches the exception, appends exactly one line to
the on-screen log panel, and changes nothing else (torrents map, history
and all other state are untouched); no exception escapes (the model
functions are total). -/
theorem control_ops_catch_and_log (env : ControlEnv) (st : ClientState) (e : String)
    (hs : env.selected = true) (hc : env.callResult = .error e) :
    pause_selected env st = { st with logs := st.logs ++ ["Pause error: " ++ e] } ∧
    force_recheck env st = { st with logs := st.logs ++ ["Recheck error: " ++ e] } ∧
    force_reannounce env st = { st with logs := st.logs ++ ["Reannounce error: " ++ e] } := by
  refine ⟨?_, ?_, ?_⟩ <;> simp [pause_selected, force_recheck, force_reannounce, hs, hc]

/-- Witness for C2: a concrete failing engine call against a concrete
state appends exactly the error line. -/
theorem control_ops_catch_and_log_witness :
    pause_selected
        { selected := true, callResult := .error "x", nameResult := .ok "t" }
        { torrents := [], download_history := [], logs := ["a"] } =
      { torrents := [], download_history := [], logs := ["a", "Pause error: " ++ "x"] } :=
  (control_ops_catch_and_log
    { selected := true, callResult := .error "x", nameResult := .ok "t" }
    { torrents := [], download_history := [], logs := ["a"] } "x" rfl rfl).1

/-- C5: the torrents map is keyed by safe_info_hash_str, which returns
the v1 hash when the engine reports one, else the v2 hash; add_torrent
skips a fingerprint already in the map with only a log line (no new map
or history entry, the existing entry untouched), and otherwise inserts
exactly one entry under that fingerprint. -/
theorem torrents_keyed_by_fingerprint_no_duplicates :
    (∀ (h : Handle) (ihs : InfoHashes) (s : String),
      h.infoHashes = some ihs → ihs.v1 = some s → safe_info_hash_str h = s) ∧
    (∀ (h : Handle) (ihs : InfoHashes) (s : String),
      h.infoHashes = some ihs → ihs.v1 = none → ihs.v2 = some s →
        safe_info_hash_str h = s) ∧
    (∀ (st : ClientState) (args : AddTorrentArgs),
      (st.torrents.lookup (safe_info_hash_str args.handle)).isSome = true →
        add_torrent st args =
          { st with logs := st.logs ++
              ["Skipped duplicate torrent: " ++ args.name_hint] }) ∧
    (∀ (st : ClientState) (args : AddTorrentArgs),
      (st.torrents.lookup (safe_info_hash_str args.handle)).isSome = false →
        (add_torrent st args).torrents =
          st.torrents ++
            [(safe_info_hash_str args.handle,
              { handle := args.handle, added_time := args.now,
                source := args.source_type, save_path := args.save_path,
                moved := false })] ∧
        (add_torrent st args).download_history =
          dequeAppend 3000 st.download_history
            { name := args.resolvedName, hash := safe_info_hash_str args.handle,
              added_time := args.now, source := args.source_type,
              save_path := args.save_path }) := by
  refine ⟨?_, ?_, ?_, ?_⟩
  · intro h ihs s hih hv1
    simp [safe_info_hash_str, hih, hv1]
  · intro h ihs s hih hv1 hv2
    simp [safe_info_hash_str, hih, hv1, hv2]
  · intro st args hdup
    simp [add_torrent, hdup]
  · intro st args hdup
    simp [add_torrent, hdup]

/-- Witness for C5: a handle reporting a v1 hash keys by it, a duplicate
add against a map already holding that key changes only the log. -/
theorem torrents_keyed_by_fingerprint_no_duplicates_witness :
    safe_info_hash_str
        { infoHashes := some { v1 := some "h1", v2 := none },
          infoHashString := none, infoHashRepr := none } = "h1" ∧
    add_torrent
        { torrents :=
            [("h1",
              { handle :=
                  { infoHashes := some { v1 := some "h1", v2 := none },
                    infoHashString := none, infoHashRepr := none },
                added_time := 0, source := "magnet", save_path := "/d",
                moved := false })],
          download_history := [], logs := [] }
        { handle :=
            { infoHashes := some { v1 := some "h1", v2 := none },
              infoHashString := none, infoHashRepr := none },
          source_type := "magnet", name_hint := "n", resolvedName := "n",
          save_path := "/d", now := 1 } =
      { torrents :=
          [("h1",
            { handle :=
                { infoHashes := some { v1 := some "h1", v2 := none },
                  infoHashString := none, infoHashRepr := none },
              added_time := 0, source := "magnet", save_path := "/d",
              moved := false })],
        download_history := [],
        logs := ["Skipped duplicate torrent: " ++ "n"] } :=
  ⟨torrents_keyed_by_fingerprint_no_duplicates.1
      { infoHashes := some { v1 := some "h1", v2 := none },
        infoHashString := none, infoHashRepr := none }
      { v1 := some "h1", v2 := none } "h1" rfl rfl,
   torrents_keyed_by_fingerprint_no_duplicates.2.2.1
      { torrents :=
          [("h1",
            { handle :=
                { infoHashes := some { v1 := some "h1", v2 := none },
                  infoHashString := none, infoHashRepr := none },
              added_time := 0, source := "magnet", save_path := "/d",
              moved := false })],
        download_history := [], logs := [] }
      { handle :=
          { infoHashes := some { v1 := some "h1", v2 := none },
            infoHashString := none, infoHashRepr := none },
        source_type := "magnet", name_hint := "n", resolvedName := "n",
        save_path := "/d", now := 1 }
      (by decide)⟩

/-- C7: the history log and the four performance ring buffers never grow
past their bounds: starting within bounds, add_torrent keeps the history
at 3000 or fewer entries and update_performance_stats keeps each buffer
at 600 or fewer samples, an append at the bound evicting the oldest
entry. -/
theorem bounded_caches_invariant :
    (∀ {α : Type} (xs : List α) (x : α) (m : Nat), xs.length = m → 1 ≤ m →
      dequeAppend m xs x = xs.drop 1 ++ [x]) ∧
    (∀ (st : ClientState) (args : AddTorrentArgs),
      st.download_history.length ≤ 3000 →
      (add_torrent st args).download_history.length ≤ 3000) ∧
    (∀ (env : PerfEnv) (ps : PerfStats),
      ps.download_speeds.length ≤ 600 → ps.upload_speeds.length ≤ 600 →
      ps.memory_usage.length ≤ 600 → ps.cpu_usage.length ≤ 600 →
      (update_performance_stats env ps).download_speeds.length ≤ 600 ∧
      (update_performance_stats env ps).upload_speeds.length ≤ 600 ∧
      (update_performance_stats env ps).memory_usage.length ≤ 600 ∧
      (update_performance_stats env ps).cpu_usage.length ≤ 600) := by
  refine ⟨?_, ?_, ?_⟩
  · intro α xs x m hm h1
    unfold dequeAppend
    rw [hm]
    simp
  · intro st args h
    by_cases hd : (st.torrents.lookup (safe_info_hash_str args.handle)).isSome = true
    · simpa [add_torrent, hd] using h
    · simpa [add_torrent, hd] using dequeAppend_length_le 3000 (by omega) _ _ h
  · intro env ps h1 h2 h3 h4
    unfold update_performance_stats
    rcases env.sessionStatus with e | ⟨dl, ul⟩ <;>
      rcases env.psutilInfo with e2 | ⟨mem, cpu⟩ <;>
      simp only [] <;>
      exact ⟨dequeAppend_length_le 600 (by omega) _ _ h1,
             dequeAppend_length_le 600 (by omega) _ _ h2,
             dequeAppend_length_le 600 (by omega) _ _ h3,
             dequeAppend_length_le 600 (by omega) _ _ h4⟩

/-- Witness for C7: a full three-element deque with maxlen 3 evicts the
oldest sample on append, and a concrete update stays within bounds. -/
theorem bounded_caches_invariant_witness :
    dequeAppend 3 [10, 20, 30] (40 : Int) = [10, 20, 30].drop 1 ++ [40] ∧
    (update_performance_stats
        { sessionStatus := .ok (5, 6), psutilInfo := .error "no psutil" }
        { download_speeds := [], upload_speeds := [], memory_usage := [],
          cpu_usage := [] }).download_speeds.length ≤ 600 :=
  ⟨bounded_caches_invariant.1 [10, 20, 30] 40 3 rfl (by decide),
   (bounded_caches_invariant.2.2
      { sessionStatus := .ok (5, 6), psutilInfo := .error "no psutil" }
      { download_speeds := [], upload_speeds := [], memory_usage := [],
        cpu_usage := [] }
      (by decide) (by decide) (by decide) (by decide)).1⟩

/-- C8: every iteration of the polling loop attempts exactly one engine
poll; a clean iteration schedules the GUI refresh and sleeps one second,
an iteration whose scheduling raised sleeps three; along any trace the
number of polls never exceeds the seconds slept (at most one poll per
second), and the loop runs no iteration once the running flag is
cleared. -/
theorem polling_loop_spec :
    (∀ (running : Nat → Bool) (envs : Nat → LoopEnv) (fuel i : Nat),
      ∀ it ∈ loopTrace running envs fuel i, it.polled = true ∧ 1 ≤ it.sleepSecs) ∧
    (∀ env : LoopEnv, env.afterRaises = false →
      loopIter env = { polled := true, scheduled := true, sleepSecs := 1 }) ∧
    (∀ env : LoopEnv, env.afterRaises = true →
      loopIter env = { polled := true, scheduled := false, sleepSecs := 3 }) ∧
    (∀ (running : Nat → Bool) (envs : Nat → LoopEnv) (fuel i : Nat),
      (loopTrace running envs fuel i).length ≤
        totalSleep (loopTrace running envs fuel i)) ∧
    (∀ (running : Nat → Bool) (envs : Nat → LoopEnv) (fuel i : Nat),
      running i = false → loopTrace running envs fuel i = []) := by
  have hiter : ∀ env : LoopEnv,
      (loopIter env).polled = true ∧ 1 ≤ (loopIter env).sleepSecs := by
    intro env
    unfold loopIter
    split <;> exact ⟨rfl, by decide⟩
  refine ⟨?_, ?_, ?_, ?_, ?_⟩
  · intro running envs fuel
    induction fuel with
    | zero => intro i it hit; simp [loopTrace] at hit
    | succ n ih =>
      intro i it hit
      by_cases hr : running i = true
      · simp only [loopTrace, hr, if_true, List.mem_cons] at hit
        rcases hit with hit | hit
        · exact hit ▸ hiter (envs i)
        · exact ih (i + 1) it hit
      · simp [loopTrace, hr] at hit
  · intro env h; simp [loopIter, h]
  · intro env h; simp [loopIter, h]
  · intro running envs fuel
    induction fuel with
    | zero => intro i; simp [loopTrace, totalSleep]
    | succ n ih =>
      intro i
      by_cases hr : running i = true
      · have h1 := (hiter (envs i)).2
        have h2 := ih (i + 1)
        simp only [loopTrace, hr, if_true, List.length_cons, totalSleep,
          List.map_cons, List.sum_cons] at *
        omega
      · simp [loopTrace, hr, totalSleep]
  · intro running envs fuel i h
    cases fuel <;> simp [loopTrace, h]

/-- Witness for C8: with the running flag permanently cleared the loop
runs no iteration, and a clean iteration sleeps one second. -/
theorem polling_loop_spec_witness :
    loopTrace (fun _ => false) (fun _ => { postRaises := false, afterRaises := false })
        5 0 = [] ∧
    loopIter { postRaises := false, afterRaises := false } =
      { polled := true, scheduled := true, sleepSecs := 1 } :=
  ⟨polling_loop_spec.2.2.2.2 (fun _ => false)
      (fun _ => { postRaises := false, afterRaises := false }) 5 0 rfl,
   polling_loop_spec.2.1 { postRaises := false, afterRaises := false } rfl⟩

/-- C1 counterexample: a completed torrent whose move into the Completed
directory fails with "disk full" produces only a log line; no info or
error dialog is presented, contradicting the claim that every
file-system failure during a move is reported by a dialog. -/
theorem auto_move_failure_presents_no_dialog :
    auto_move_completed false
        [{ statusOk := true, isDone := true, moved := false, name := some "t",
           sourceExists := true, target := "/c/t", moveRaises := some "disk full" }] =
      { infoBoxes := [], errorBoxes := [],
        logs := ["Auto-move failed: disk full"] } := by
  decide

/-- C1 amended: a failure during the Save As copy is reported with an
error dialog (and a log line); a failure during the automatic move into
the Completed directory is only logged, and auto_move_completed never
opens any dialog, a failing mkdir of the Completed directory silently
skipping the pass. -/
theorem save_move_failure_reporting
    (env : SaveAsEnv) (e : String) (d n : String)
    (hs : env.selected = true) (hx : env.srcExists = true)
    (hd : env.destDir = some d) (hn : env.contentName = some n)
    (hc : env.copyRaises = some e)
    (it : AutoMoveItem) (f : String)
    (h1 : it.statusOk = true) (h2 : it.isDone = true) (h3 : it.moved = false)
    (m : String) (h4 : it.name = some m) (h5 : it.sourceExists = true)
    (h6 : it.moveRaises = some f) :
    save_as_selected env =
      { infoBoxes := [], errorBoxes := [("Save As", "Failed: " ++ e)],
        logs := ["Save As failed: " ++ e] } ∧
    autoMoveItemEffects it =
      { infoBoxes := [], errorBoxes := [], logs := ["Auto-move failed: " ++ f] } ∧
    (∀ (mk : Bool) (items : List AutoMoveItem),
      (auto_move_completed mk items).infoBoxes = [] ∧
      (auto_move_completed mk items).errorBoxes = []) ∧
    auto_move_completed true [it] = UIEffects.none := by
  refine ⟨?_, ?_, ?_, ?_⟩
  · simp [save_as_selected, hs, hx, hd, hn, hc, UIEffects.none]
  · simp [autoMoveItemEffects, h1, h2, h3, h4, h5, h6, UIEffects.none]
  · intro mk items
    unfold auto_move_completed
    split
    · exact ⟨rfl, rfl⟩
    · refine foldl_append_no_dialogs _ _ rfl rfl ?_
      intro x hx2
      simp only [List.mem_map] at hx2
      obtain ⟨it2, _, rfl⟩ := hx2
      exact autoMoveItemEffects_no_dialogs it2
  · simp [auto_move_completed]

/-- Witness for C1 amended, at a concrete failing copy and failing move. -/
theorem save_move_failure_reporting_witness :
    save_as_selected
        { selected := true, srcExists := true, destDir := some "/dest",
          contentName := some "file", copyRaises := some "denied" } =
      { infoBoxes := [], errorBoxes := [("Save As", "Failed: " ++ "denied")],
        logs := ["Save As failed: " ++ "denied"] } :=
  (save_move_failure_reporting
    { selected := true, srcExists := true, destDir := some "/dest",
      contentName := some "file", copyRaises := some "denied" }
    "denied" "/dest" "file" rfl rfl rfl rfl rfl
    { statusOk := true, isDone := true, moved := false, name := some "t",
      sourceExists := true, target := "/c/t", moveRaises := some "oops" }
    "oops" rfl rfl rfl "t" rfl rfl rfl).1

/-- C4 counterexample: starting from the unsorted table, the first click
on the Size header sorts ascending, but the second click leaves the rows
in the same ascending order instead of reversing them (the code only
sets the reverse flag on that click), so repeated clicks do not
alternate ascending/descending from the start. -/
theorem size_sort_second_click_stays_ascending :
    (sizeClicks [['2', '.', '0', ' ', 'K', 'B'], ['1', '.', '0', ' ', 'K', 'B']] 1).1 =
      [['1', '.', '0', ' ', 'K', 'B'], ['2', '.', '0', ' ', 'K', 'B']] ∧
    (sizeClicks [['2', '.', '0', ' ', 'K', 'B'], ['1', '.', '0', ' ', 'K', 'B']] 2).1 =
      [['1', '.', '0', ' ', 'K', 'B'], ['2', '.', '0', ' ', 'K', 'B']] ∧
    [['1', '.', '0', ' ', 'K', 'B'], ['2', '.', '0', ' ', 'K', 'B']] ≠
      [['2', '.', '0', ' ', 'K', 'B'], ['1', '.', '0', ' ', 'K', 'B']] :=
  ⟨by decide, by decide, by decide⟩

/-- C4 amended: clicking the Size header always re-sorts the displayed
rows by the parsed byte value (a stable ascending sort, unparseable text
sorting as infinity); the first two clicks both display ascending order
because the reverse flag is only set, not applied, on the first repeat;
from then on clicks alternate, an even click count displaying ascending
and an odd count of three or more displaying descending order, and the
rows always remain a permutation of the table. -/
theorem size_sort_orders_and_toggles (rows : List (List Char)) (n : Nat) (hn : 1 ≤ n) :
    (sizeClicks rows n).1.Perm rows ∧
    (sizeClicks rows n).2 = some ("Size", decide (n % 2 = 0)) ∧
    ((n = 1 ∨ n % 2 = 0) → (sizeClicks rows n).1.Sorted sizeRowLE) ∧
    (2 ≤ n → n % 2 = 1 →
      (sizeClicks rows n).1.Sorted fun a b => sizeRowLE b a) := by
  induction n with
  | zero => omega
  | succ m ih =>
    rcases m with _ | k
    · refine ⟨List.perm_insertionSort sizeRowLE rows, rfl, ?_, ?_⟩
      · intro _
        exact List.sorted_insertionSort sizeRowLE rows
      · intro h2 _
        omega
    · obtain ⟨hperm, hstate, hasc, hdesc⟩ := ih (by omega)
      by_cases hk : (k + 1) % 2 = 0
      · have hstep : sizeClicks rows (k + 2) =
            ((sortSizeRows (sizeClicks rows (k + 1)).1).reverse, some ("Size", false)) := by
          show sort_treeview_size (sizeClicks rows (k + 1)).1 (sizeClicks rows (k + 1)).2 = _
          rw [hstate]
          simp [sort_treeview_size, hk]
        refine ⟨?_, ?_, ?_, ?_⟩
        · rw [hstep]
          exact ((sortSizeRows _).reverse_perm.trans
            (List.perm_insertionSort _ _)).trans hperm
        · rw [hstep]
          have h2 : (k + 2) % 2 = 1 := by omega
          simp [h2]
        · intro hx
          rcases hx with hx | hx <;> omega
        · intro _ _
          rw [hstep]
          exact List.pairwise_reverse.mpr (List.sorted_insertionSort sizeRowLE _)
      · have hstep : sizeClicks rows (k + 2) =
            (sortSizeRows (sizeClicks rows (k + 1)).1, some ("Size", true)) := by
          show sort_treeview_size (sizeClicks rows (k + 1)).1 (sizeClicks rows (k + 1)).2 = _
          rw [hstate]
          simp [sort_treeview_size, hk]
        refine ⟨?_, ?_, ?_, ?_⟩
        · rw [hstep]
          exact (List.perm_insertionSort _ _).trans hperm
        · rw [hstep]
          have h2 : (k + 2) % 2 = 0 := by omega
          simp [h2]
        · intro _
          rw [hstep]
          exact List.sorted_insertionSort sizeRowLE _
        · intro _ hodd
          omega

/-- C9: parsing the duration string produced by format_time with the ETA
parser of sort_treeview returns the formatted number of seconds exactly;
format_time renders every non-positive count as "0s", and parse_eta maps
the infinity cell to the infinite key. -/
theorem eta_format_roundtrip :
    (∀ s : Nat, parse_eta (format_time (s : Int)) = .ok (.fin s)) ∧
    (∀ s : Int, s ≤ 0 → format_time s = ['0', 's']) ∧
    parse_eta ['∞'] = .ok .inf := by
  refine ⟨?_, ?_, rfl⟩
  · intro s
    rcases Nat.eq_zero_or_pos s with hs | hs
    · subst hs
      rfl
    · have h1 : ¬ ((s : Int) ≤ 0) := by omega
      rw [format_time, if_neg h1]
      have h2 : ((s : Int)).toNat = s := by omega
      rw [h2, parse_eta, if_neg (formatTime_join_ne_inf s),
        splitOnSpace_joinSpace _ (formatTimeParts_ne_nil s) (formatTimeParts_no_space s),
        parseEtaSum_formatTimeParts]
      rfl
  · intro s hs
    rw [format_time, if_pos hs]

/-- Witness for C9 at one day + one hour + one minute + one second and
at a negative count. -/
theorem eta_format_roundtrip_witness :
    parse_eta (format_time ((90061 : Nat) : Int)) = .ok (.fin 90061) ∧
    format_time (-5) = ['0', 's'] :=
  ⟨eta_format_roundtrip.1 90061, eta_format_roundtrip.2.1 (-5) (by decide)⟩

/-- C10 counterexample: at b = 1024 * (2 to the 53rd + 1) the quotient
b // 1024 exceeds the exact integer range of a double, float() rounds it
down (ties to even), and the round trip returns 1024 * 2 to the 53rd
instead of b; so the claim does not hold for every positive multiple of
1024. -/
theorem speed_limit_roundtrip_precision_counterexample :
    parse_speed_limit_input (format_speed_limit_display (1024 * (2 ^ 53 + 1))) =
      .ok (2 ^ 53 * 1024) ∧
    2 ^ 53 * 1024 ≠ 1024 * (2 ^ 53 + 1) := by
  constructor
  · rw [parse_format_digits (2 ^ 53 + 1) (by omega), floatRoundNat_first_gap]
  · intro e
    omega

/-- C10 amended: the unlimited limit 0 displays as "∞" and parses back
to 0; for every positive multiple of 1024 whose quotient by 1024 is at
most 2 to the 53rd (the exact integer range of Python floats) the
display parses back to the same limit; and any input that strips and
lowers to one of "0", "inf", "infinity", "∞", "unlimited" (any letter
case, surrounded by arbitrary whitespace) parses to 0. -/
theorem speed_limit_roundtrip :
    format_speed_limit_display 0 = ['∞'] ∧
    parse_speed_limit_input (format_speed_limit_display 0) = .ok 0 ∧
    (∀ k : Nat, 1 ≤ k → k ≤ 2 ^ 53 →
      parse_speed_limit_input (format_speed_limit_display (1024 * k)) =
        .ok (1024 * k)) ∧
    (∀ ws1 w ws2 : List Char,
      (∀ c ∈ ws1, isWs c = true) → (∀ c ∈ ws2, isWs c = true) →
      pyLower w ∈ unlimitedSpellings →
      parse_speed_limit_input (ws1 ++ (w ++ ws2)) = .ok 0) := by
  refine ⟨rfl, rfl, ?_, ?_⟩
  · intro k h1 h2
    rw [parse_format_digits k h1, floatRoundNat_eq_self k h2, Nat.mul_comm]
  · intro ws1 w ws2 h1 h2 hv
    have hne : w ≠ [] := by
      intro e
      subst e
      exact absurd hv (by decide)
    have hw : ∀ c ∈ w, isWs c = false := by
      intro c hc
      have hcl : charLower c ∈ pyLower w := List.mem_map_of_mem charLower hc
      have hnw := unlimitedSpellings_no_ws (pyLower w) hv (charLower c) hcl
      rcases hb : isWs c with _ | _
      · rfl
      · rw [charLower_ws c hb, hb] at hnw
        exact hnw
    rw [parse_speed_limit_input, pyStrip_sandwich ws1 w ws2 h1 h2 hw hne,
      if_pos hv]

/-- Witness for C10 amended: the concrete limit 5120 = 1024 * 5 round
trips, and a cased, whitespace-padded "INF" parses to unlimited. -/
theorem speed_limit_roundtrip_witness :
    parse_speed_limit_input (format_speed_limit_display (1024 * 5)) =
      .ok (1024 * 5) ∧
    parse_speed_limit_input ([' '] ++ (['I', 'N', 'F'] ++ [' '])) = .ok 0 :=
  ⟨speed_limit_roundtrip.2.2.1 5 (by omega) (by norm_num),
   speed_limit_roundtrip.2.2.2 [' '] ['I', 'N', 'F'] [' ']
     (by decide) (by decide) (by decide)⟩

/-- Witness for C4 amended: one click on a concrete three-row table
leaves the rows ascending by parsed size. -/
theorem size_sort_orders_and_toggles_witness :
    (sizeClicks [['3', ' ', 'B'], ['1', ' ', 'B'], ['2', ' ', 'B']] 1).1.Sorted
      sizeRowLE :=
  (size_sort_orders_and_toggles [['3', ' ', 'B'], ['1', ' ', 'B'], ['2', ' ', 'B']] 1
      (by decide)).2.2.1 (Or.inl rfl)

end CasTorrent
